import Mathlib

set_option linter.unusedVariables false

/-!
Verification of the secret-store SDK's request execution engine.

This file embeds the cache layer (`src/cache.rs`), the error classification
(`src/errors.rs`) and the client orchestration (`src/client.rs`) of the
secret-store SDK into Lean.  Machine times (`time::OffsetDateTime`) are
modelled as `Int` instants; the transport layer is modelled as an oracle
(the response, or the list of per-attempt outcomes, that the network would
deliver).  All definitions follow the Rust source line by line.
-/

namespace SecretStore

/-! ## Errors (`src/errors.rs`) -/

/-- The SDK `Error` enum (`errors.rs` lines 40-73).  `http` carries status,
category, message and optional request id; the remaining constructors carry
the payloads of the corresponding Rust variants. -/
inductive Error where
  | http (status : Nat) (category : String) (message : String)
      (requestId : Option String)
  | deserialize (msg : String)
  | network (msg : String)
  | timeout
  | config (msg : String)
  | other (msg : String)
deriving DecidableEq, Repr

/-- `Error::is_retryable` (`errors.rs` lines 130-137): HTTP statuses
429, 500, 502, 503, 504; all network errors; timeout.  Nothing else. -/
def Error.is_retryable : Error → Bool
  | .http status _ _ _ =>
      status == 429 || status == 500 || status == 502 || status == 503 ||
        status == 504
  | .network _ => true
  | .timeout => true
  | _ => false

/-- The reqwest transport-level error, by the classification used in
`impl From<reqwest::Error> for Error` (`errors.rs` lines 181-193):
timeout, connect, request, decode, or other. -/
inductive ReqwestError where
  | timeout
  | connect (msg : String)
  | request (msg : String)
  | decode (msg : String)
  | misc (msg : String)
deriving DecidableEq, Repr

/-- `From<reqwest::Error> for Error` (`errors.rs` lines 181-193). -/
def error_from_reqwest : ReqwestError → Error
  | .timeout => .timeout
  | .connect m => .network m
  | .request m => .network m
  | .decode m => .deserialize m
  | .misc m => .other m

/-! ## Cache statistics (`src/cache.rs`) -/

/-- `CacheStatsInner` (`cache.rs` lines 31-38): the five monotonic counters. -/
structure CacheStats where
  hits : Nat
  misses : Nat
  insertions : Nat
  evictions : Nat
  expirations : Nat
deriving DecidableEq, Repr

def CacheStats.record_hit (st : CacheStats) : CacheStats :=
  { st with hits := st.hits + 1 }

def CacheStats.record_miss (st : CacheStats) : CacheStats :=
  { st with misses := st.misses + 1 }

def CacheStats.record_insertion (st : CacheStats) : CacheStats :=
  { st with insertions := st.insertions + 1 }

def CacheStats.record_expiration (st : CacheStats) : CacheStats :=
  { st with expirations := st.expirations + 1 }

/-- `CacheStats::hit_rate` (`cache.rs` lines 74-82): the percentage
`(hits / (hits + misses)) * 100`, and `0` when there were no lookups.
The Rust code computes in `f64`; we use `ℚ` for the exact value. -/
def hit_rate (st : CacheStats) : ℚ :=
  let hits := st.hits
  let total := st.hits + st.misses
  if total = 0 then 0 else ((hits : ℚ) / (total : ℚ)) * 100

/-! ## Cached entries (`src/cache.rs`) -/

/-- `CachedSecret` (`cache.rs` lines 118-127).  `SecretString` is an opaque
string; `serde_json::Value` metadata is kept as an opaque string;
`OffsetDateTime` instants are `Int`. -/
structure CachedSecret where
  value : String
  version : Int
  expiresAt : Option Int
  metadata : String
  updatedAt : Int
  etag : Option String
  lastModified : Option String
  cacheExpiresAt : Int
deriving DecidableEq, Repr

/-- `CachedSecret::is_expired` (`cache.rs` lines 131-147), with the current
instant passed explicitly in place of `OffsetDateTime::now_utc()`. -/
def CachedSecret.is_expired (c : CachedSecret) (now : Int) : Bool :=
  if now ≥ c.cacheExpiresAt then
    true
  else
    match c.expiresAt with
    | some e => if now ≥ e then true else false
    | none => false

/-! ## Secrets and options (`src/models.rs`) -/

/-- The `Secret` model (`models.rs` lines 47-70).  `namespace` is a Lean
keyword, so the field is named `ns`. -/
structure Secret where
  ns : String
  key : String
  value : String
  version : Int
  expiresAt : Option Int
  metadata : String
  updatedAt : Int
  etag : Option String
  lastModified : Option String
  requestId : Option String
deriving DecidableEq, Repr

/-- `CachedSecret::into_secret` (`cache.rs` lines 150-163). -/
def CachedSecret.into_secret (c : CachedSecret) (ns key : String) : Secret :=
  { ns := ns
    key := key
    value := c.value
    version := c.version
    expiresAt := c.expiresAt
    metadata := c.metadata
    updatedAt := c.updatedAt
    etag := c.etag
    lastModified := c.lastModified
    requestId := none }

/-- `GetOpts` (`models.rs` lines 108-116). -/
structure GetOpts where
  useCache : Bool
  ifNoneMatch : Option String
  ifModifiedSince : Option String
deriving DecidableEq, Repr

/-- `impl Default for GetOpts` (`models.rs` lines 118-126). -/
def GetOpts.default : GetOpts :=
  { useCache := true, ifNoneMatch := none, ifModifiedSince := none }

/-- `BatchOp` (`models.rs` lines 275-289). -/
structure BatchOp where
  action : String
  key : String
  value : Option String
  ttlSeconds : Option Int
  metadata : Option String
deriving DecidableEq, Repr

/-! ## The cache store

The client holds a `moka` map from cache-key strings to `CachedSecret`.
It is modelled as an association list with unique keys; `insert` replaces,
`invalidate` removes, `get` looks up. -/

/-- The in-memory cache map. -/
def CacheMap : Type := List (String × CachedSecret)

/-- Point lookup in the cache map (moka `Cache::get`). -/
def cacheGet : CacheMap → String → Option CachedSecret
  | [], _ => none
  | (k', v) :: rest, k => if k' = k then some v else cacheGet rest k

/-- Removal of a key (moka `Cache::invalidate`): a no-op if absent. -/
def cacheInvalidate : CacheMap → String → CacheMap
  | [], _ => []
  | p :: rest, k =>
      if p.1 = k then cacheInvalidate rest k else p :: cacheInvalidate rest k

/-- Insert-or-replace (moka `Cache::insert`). -/
def cacheInsert (c : CacheMap) (k : String) (v : CachedSecret) : CacheMap :=
  (k, v) :: cacheInvalidate c k

/-! ## Client state (`src/client.rs`, `src/config.rs`) -/

/-- The cache-relevant state of a `Client`: the `cache_config.enabled` flag,
the configured default TTL (`cache_config.default_ttl_secs`), the optional
cache map (`Client.cache`, `Some` exactly when caching was enabled at build
time) and the statistics handle. -/
structure ClientState where
  cacheEnabled : Bool
  defaultTtlSecs : Nat
  cache : Option CacheMap
  stats : CacheStats

/-- The cache key `format!("{}/{}", namespace, key)` used throughout
`client.rs` (e.g. lines 226, 282, 382, 419, 532, 906). -/
def cache_key (ns key : String) : String := ns ++ "/" ++ key

/-- Lookup of a cache key in a client's cache, `none` when caching is off. -/
def lookup_cache (s : ClientState) (k : String) : Option CachedSecret :=
  match s.cache with
  | none => none
  | some c => cacheGet c k

/-- `str::split_once` on the underlying character list. -/
def split_once_char (c : Char) : List Char → Option (List Char × List Char)
  | [] => none
  | x :: xs =>
      if x = c then some ([], xs)
      else (split_once_char c xs).map (fun p => (x :: p.1, p.2))

/-- `cache_key.split_once('/').unwrap_or(("", cache_key))` as used in
`Client::get_from_cache` (`client.rs` line 1679). -/
def split_cache_key (ck : String) : String × String :=
  match split_once_char '/' ck.data with
  | some p => (String.mk p.1, String.mk p.2)
  | none => ("", ck)

/-- `Client::get_from_cache` (`client.rs` lines 1656-1697).  Returns the
cached secret (if present and fresh) together with the updated client
state: an expired entry is removed and counted as one expiration plus one
miss, a fresh entry counts one hit, an absent entry counts one miss, and a
disabled cache returns early without touching any counter. -/
def get_from_cache (s : ClientState) (now : Int) (ck : String) :
    Option Secret × ClientState :=
  match s.cache with
  | none => (none, s)
  | some c =>
    match cacheGet c ck with
    | some cached =>
        if cached.is_expired now then
          (none,
            { s with
                cache := some (cacheInvalidate c ck)
                stats := s.stats.record_expiration.record_miss })
        else
          let p := split_cache_key ck
          (some (cached.into_secret p.1 p.2),
            { s with stats := s.stats.record_hit })
    | none => (none, { s with stats := s.stats.record_miss })

/-- The TTL chosen by `cache_secret` (`client.rs` lines 1704-1709): twice
the default when the secret carries an ETag (it can then be revalidated),
else the default. -/
def chosen_ttl (defaultTtlSecs : Nat) (secret : Secret) : Nat :=
  if secret.etag.isSome then defaultTtlSecs * 2 else defaultTtlSecs

/-- The `CachedSecret` record built by `cache_secret` (`client.rs` lines
1711-1722). -/
def make_cached (defaultTtlSecs : Nat) (now : Int) (secret : Secret) :
    CachedSecret :=
  { value := secret.value
    version := secret.version
    expiresAt := secret.expiresAt
    metadata := secret.metadata
    updatedAt := secret.updatedAt
    etag := secret.etag
    lastModified := secret.lastModified
    cacheExpiresAt := now + (chosen_ttl defaultTtlSecs secret : Int) }

/-- `Client::cache_secret` (`client.rs` lines 1700-1727): insert with TTL
`2 * default_ttl_secs` when the secret carries an ETag, else
`default_ttl_secs`; count one insertion.  A disabled cache is a no-op. -/
def cache_secret (s : ClientState) (now : Int) (ck : String)
    (secret : Secret) : ClientState :=
  match s.cache with
  | none => s
  | some c =>
    { s with
        cache := some (cacheInsert c ck (make_cached s.defaultTtlSecs now secret))
        stats := s.stats.record_insertion }

/-! ## `Client::get_secret` (`client.rs` lines 281-327)

The transport plus retry machinery is abstracted as the outcome the network
delivers for the single logical dispatch: a parsed success body, a 304, or
an error surfaced by `execute_with_retry`. -/

/-- The parsed payload of a successful GET response
(`Client::parse_get_response`, `client.rs` lines 1600-1653), together with
the `etag`, `last-modified` and `x-request-id` headers. -/
structure GetBody where
  value : String
  version : Int
  expiresAt : Option Int
  metadata : String
  updatedAt : Int
  etag : Option String
  lastModified : Option String
  requestId : Option String
deriving DecidableEq, Repr

/-- Outcome of the network dispatch inside `get_secret`: the result of
`execute_with_retry` followed by the status-304 test and body parsing. -/
inductive NetResult where
  | ok (body : GetBody)
  | notModified
  | err (e : Error)
deriving DecidableEq, Repr

/-- The `Secret` assembled from a parsed GET response body
(`Client::parse_get_response`, `client.rs` lines 1641-1652). -/
def secret_of_body (ns key : String) (body : GetBody) : Secret :=
  { ns := ns
    key := key
    value := body.value
    version := body.version
    expiresAt := body.expiresAt
    metadata := body.metadata
    updatedAt := body.updatedAt
    etag := body.etag
    lastModified := body.lastModified
    requestId := body.requestId }

/-- Result of one `get_secret` call: the returned value or error, the
client state after the call, and whether a network request was
dispatched. -/
structure GetOut where
  result : Except Error Secret
  state : ClientState
  dispatched : Bool

/-- `Client::get_secret` (`client.rs` lines 281-327).  With `use_cache`
set the cache is consulted first and a fresh hit returns without any
dispatch; otherwise the request is dispatched, a 304 is resolved against
the cache (error if it cannot be), and a parsed success body is cached
exactly when `cache_config.enabled && opts.use_cache`. -/
def get_secret (s : ClientState) (now : Int) (ns key : String)
    (opts : GetOpts) (net : NetResult) : GetOut :=
  let ck := cache_key ns key
  let checked : Option Secret × ClientState :=
    if opts.useCache then get_from_cache s now ck else (none, s)
  match checked with
  | (some sec, s1) => ⟨.ok sec, s1, false⟩
  | (none, s1) =>
    match net with
    | .err e => ⟨.error e, s1, true⟩
    | .notModified =>
        match get_from_cache s1 now ck with
        | (some sec, s2) => ⟨.ok sec, s2, true⟩
        | (none, s2) =>
            ⟨.error (.other "Server returned 304 but no cached entry found"),
              s2, true⟩
    | .ok body =>
        let secret : Secret := secret_of_body ns key body
        let s2 :=
          if s1.cacheEnabled && opts.useCache then cache_secret s1 now ck secret
          else s1
        ⟨.ok secret, s2, true⟩

/-! ## `Client::execute_with_retry` (`client.rs` lines 1359-1544)

The transport is an oracle: a list of per-physical-send outcomes, consumed
one per attempt.  Backoff waiting times are irrelevant to the classified
control flow and are not modelled; the wall-clock `max_elapsed_time` cutoff
is likewise not modelled (the attempt-count budget `current_retry <
max_retries` is checked before any transient retry is allowed). -/

/-- The body of a structured error response (`ErrorResponse`,
`errors.rs` lines 172-179). -/
structure ErrorBody where
  error : String
  message : String
  status : Nat
deriving DecidableEq, Repr

/-- One raw HTTP response: its status code, its parseable error body when
it has one (`none` models an unparseable body), and the `x-request-id`
header. -/
structure RawResponse where
  status : Nat
  body : Option ErrorBody
  requestId : Option String
deriving DecidableEq, Repr

/-- The outcome of one physical send: a response, or a transport error. -/
inductive TransportOutcome where
  | response (r : RawResponse)
  | transportErr (e : ReqwestError)
deriving DecidableEq, Repr

/-- `Client::parse_error_response` (`client.rs` lines 1570-1589): a JSON
error body yields `Error::Http` built from the *body's* status, category
and message; otherwise the response's status with category `"unknown"`. -/
def parse_error_response (r : RawResponse) : Error :=
  match r.body with
  | some b => .http b.status b.error b.message r.requestId
  | none =>
      .http r.status "unknown" ("HTTP error " ++ toString r.status) r.requestId

/-- What one attempt of the `retry_notify` closure decides: a terminal
result (success or permanent error, `backoff::Error::Permanent`), or a
transient error that schedules another attempt. -/
inductive AttemptStep where
  | done (r : Except Error RawResponse)
  | transient (e : Error)
deriving Repr

/-- The classification of one attempt inside `execute_with_retry`
(`client.rs` lines 1446-1515), given whether the credential supports
refresh (`sr`), the current `token_refresh_count` (`trc`), the configured
retry limit (`maxR`) and the attempt loop's `current_retry` count (`cr`):

* a 401 with `trc == 0` and refresh support becomes the permanent marker
  error of category `"auth_refresh_needed"`;
* a 5xx, 429 or 408 status is parsed into an error and is transient
  exactly when that error `is_retryable` and the retry budget remains;
* any other non-2xx, non-304 status is a permanent parsed error;
* a 2xx or 304 response succeeds;
* a transport error is transient exactly when retryable within budget. -/
def classify_attempt (sr : Bool) (trc maxR cr : Nat) :
    TransportOutcome → AttemptStep
  | .response r =>
      if r.status = 401 ∧ trc = 0 ∧ sr = true then
        .done (.error
          (.http 401 "auth_refresh_needed" "Token refresh required"
            r.requestId))
      else if (500 ≤ r.status ∧ r.status ≤ 599) ∨ r.status = 429 ∨
          r.status = 408 then
        let e := parse_error_response r
        if e.is_retryable = true ∧ cr < maxR then .transient e
        else .done (.error e)
      else if ¬(200 ≤ r.status ∧ r.status ≤ 299) ∧ r.status ≠ 304 then
        .done (.error (parse_error_response r))
      else .done (.ok r)
  | .transportErr re =>
      let e := error_from_reqwest re
      if e.is_retryable = true ∧ cr < maxR then .transient e
      else .done (.error e)

/-- Result of one run of the inner `retry_notify` loop: the terminal result,
the number of physical sends it consumed, and the unconsumed tail of the
transport oracle. -/
structure InnerOut where
  result : Except Error RawResponse
  sends : Nat
  rest : List TransportOutcome
deriving Repr

/-- The inner `retry_notify` loop of `execute_with_retry`: consume one
outcome per attempt; a transient error increments `current_retry` (the
`retry_notify` notify callback) and tries again.  `none` means the oracle
ran out of outcomes. -/
def run_inner (sr : Bool) (trc maxR : Nat) :
    Nat → List TransportOutcome → Option InnerOut
  | _, [] => none
  | cr, o :: rest =>
    match classify_attempt sr trc maxR cr o with
    | .done r => some ⟨r, 1, rest⟩
    | .transient _ =>
        match run_inner sr trc maxR (cr + 1) rest with
        | none => none
        | some io => some ⟨io.result, io.sends + 1, io.rest⟩

/-- Result of one logical `execute_with_retry` call: the surfaced result,
the total number of physical sends, and how often `Auth::refresh` was
invoked. -/
structure ExecOut where
  result : Except Error RawResponse
  sends : Nat
  refreshes : Nat
deriving Repr

/-- The guard of the outer loop's refresh arm (`client.rs` lines
1527-1531): an `Error::Http` with status 401 and category
`"auth_refresh_needed"`, while `token_refresh_count == 0`. -/
def needs_refresh_retry (trc : Nat) : Error → Bool
  | .http status category _ _ =>
      status == 401 && category == "auth_refresh_needed" && trc == 0
  | _ => false

/-- `Client::execute_with_retry` (`client.rs` lines 1359-1544).  The outer
loop runs the inner retry loop with `token_refresh_count = 0`; on the
refresh marker error it invokes `Auth::refresh` once (always succeeding in
this model), sets `token_refresh_count = 1` and re-runs the inner loop with
a fresh retry budget.  After that second run the refresh guard
`token_refresh_count == 0` can no longer hold, so its result is final. -/
def execute_with_retry (sr : Bool) (maxR : Nat)
    (outs : List TransportOutcome) : Option ExecOut :=
  match run_inner sr 0 maxR 0 outs with
  | none => none
  | some io =>
    match io.result with
    | .error e =>
        if needs_refresh_retry 0 e then
          match run_inner sr 1 maxR 0 io.rest with
          | none => none
          | some io2 => some ⟨io2.result, io.sends + io2.sends, 1⟩
        else some ⟨.error e, io.sends, 0⟩
    | .ok r => some ⟨.ok r, io.sends, 0⟩

/-- The error an outcome is parsed into when it does not succeed:
`parse_error_response` for responses, the `From<reqwest::Error>` mapping
for transport errors. -/
def outcomeError : TransportOutcome → Error
  | .response r => parse_error_response r
  | .transportErr re => error_from_reqwest re

/-- An outcome that the engine treats as a retryable failure: a response
whose status falls in the retry pre-check (`5xx`, 429 or 408) and whose
parsed error `is_retryable`, or a retryable transport error. -/
def isRetryableFailure : TransportOutcome → Bool
  | .response r =>
      (decide ((500 ≤ r.status ∧ r.status ≤ 599) ∨ r.status = 429 ∨
        r.status = 408)) && (parse_error_response r).is_retryable
  | .transportErr re => (error_from_reqwest re).is_retryable

/-! ## Mutating operations (`src/client.rs`)

Each mutating operation synchronously invalidates the affected cache keys
and then dispatches the request.  The sequencing is recorded as an event
trace; the response to the dispatch is an oracle `net` whose parsed value
is irrelevant to the cache, so the result type is abstract. -/

/-- Observable steps of a mutating operation: a cache invalidation of a
given cache key, or the network dispatch (`execute_with_retry`). -/
inductive Event where
  | invalidate (key : String)
  | dispatch
deriving DecidableEq, Repr

/-- The `if let Some(cache) = &self.cache { cache.invalidate(key) }`
prologue shared by `put_secret` (lines 381-384), `delete_secret` (lines
418-421) and `rollback` (lines 905-908). -/
def invalidate_step (s : ClientState) (ck : String) :
    ClientState × List Event :=
  match s.cache with
  | none => (s, [])
  | some c =>
      ({ s with cache := some (cacheInvalidate c ck) }, [.invalidate ck])

/-- Result of a mutating operation: the parsed response, the client state
after the call and the trace of observable steps in execution order. -/
structure MutOut (α : Type) where
  result : Except Error α
  state : ClientState
  trace : List Event

/-- `Client::put_secret` (`client.rs` lines 373-413): invalidate the key's
cache entry, then build and dispatch the request, then parse. -/
def put_secret (s : ClientState) (ns key : String)
    (net : Except Error α) : MutOut α :=
  let p := invalidate_step s (cache_key ns key)
  ⟨net, p.1, p.2 ++ [.dispatch]⟩

/-- `Client::delete_secret` (`client.rs` lines 416-438). -/
def delete_secret (s : ClientState) (ns key : String)
    (net : Except Error α) : MutOut α :=
  let p := invalidate_step s (cache_key ns key)
  ⟨net, p.1, p.2 ++ [.dispatch]⟩

/-- `Client::rollback` (`client.rs` lines 898-920); the target version does
not enter the cache key. -/
def rollback (s : ClientState) (ns key : String) (version : Int)
    (net : Except Error α) : MutOut α :=
  let p := invalidate_step s (cache_key ns key)
  ⟨net, p.1, p.2 ++ [.dispatch]⟩

/-- The `for op in &operations { cache.invalidate(...) }` loop of
`batch_operate` (`client.rs` lines 530-535), on the raw cache map. -/
def invalidate_keys (c : CacheMap) : List String → CacheMap
  | [] => c
  | k :: ks => invalidate_keys (cacheInvalidate c k) ks

/-- The cache-invalidation prologue of `batch_operate` (`client.rs` lines
529-535): every operation's key is invalidated, in order. -/
def batch_invalidate_step (s : ClientState) (ns : String)
    (operations : List BatchOp) : ClientState × List Event :=
  match s.cache with
  | none => (s, [])
  | some c =>
      ({ s with
          cache := some
            (invalidate_keys c
              (operations.map (fun op => cache_key ns op.key))) },
        operations.map (fun op => .invalidate (cache_key ns op.key)))

/-- `Client::batch_operate` (`client.rs` lines 522-558): invalidate every
affected key, then dispatch, then parse. -/
def batch_operate (s : ClientState) (ns : String)
    (operations : List BatchOp) (transactional : Bool)
    (net : Except Error α) : MutOut α :=
  let p := batch_invalidate_step s ns operations
  ⟨net, p.1, p.2 ++ [.dispatch]⟩

/-- `Client::invalidate_cache` (`client.rs` lines 224-229). -/
def invalidate_cache (s : ClientState) (ns key : String) : ClientState :=
  match s.cache with
  | none => s
  | some c => { s with cache := some (cacheInvalidate c (cache_key ns key)) }

/-- Holds when every invalidation in the trace happens strictly before
every dispatch: once a dispatch occurs, no invalidation follows it. -/
def no_invalidate_after_dispatch : List Event → Bool
  | [] => true
  | .dispatch :: rest =>
      rest.all (fun e => match e with | .invalidate _ => false | _ => true)
  | .invalidate _ :: rest => no_invalidate_after_dispatch rest

/-! ## Helper lemmas about the cache map -/

theorem cacheGet_invalidate_self (c : CacheMap) (k : String) :
    cacheGet (cacheInvalidate c k) k = none := by
  induction c with
  | nil => rfl
  | cons p rest ih =>
    by_cases h : p.1 = k
    · simpa [cacheInvalidate, h] using ih
    · simpa [cacheInvalidate, h, cacheGet] using ih

theorem cacheGet_insert_self (c : CacheMap) (k : String) (v : CachedSecret) :
    cacheGet (cacheInsert c k v) k = some v := by
  simp [cacheInsert, cacheGet]

theorem cacheGet_invalidate_none (c : CacheMap) (k k' : String)
    (h : cacheGet c k = none) : cacheGet (cacheInvalidate c k') k = none := by
  induction c with
  | nil => rfl
  | cons p rest ih =>
    have hk : ¬ p.1 = k := by
      intro hp
      simp [cacheGet, hp] at h
    have h' : cacheGet rest k = none := by simpa [cacheGet, hk] using h
    by_cases hk' : p.1 = k'
    · simpa [cacheInvalidate, hk'] using ih h'
    · simpa [cacheInvalidate, hk', cacheGet, hk] using ih h'

theorem invalidate_keys_preserve_none (ks : List String) (c : CacheMap)
    (k : String) (h : cacheGet c k = none) :
    cacheGet (invalidate_keys c ks) k = none := by
  induction ks generalizing c with
  | nil => exact h
  | cons k' ks ih => exact ih _ (cacheGet_invalidate_none c k k' h)

theorem invalidate_keys_get_none (ks : List String) (c : CacheMap)
    (k : String) (hk : k ∈ ks) : cacheGet (invalidate_keys c ks) k = none := by
  induction ks generalizing c with
  | nil => cases hk
  | cons k' ks ih =>
    rcases List.mem_cons.mp hk with h | h
    · subst h
      exact invalidate_keys_preserve_none ks _ k (cacheGet_invalidate_self c k)
    · exact ih h (c := cacheInvalidate c k')

/-! ## C10: the cache key mapping is not injective -/

/-- A concrete fresh cache entry, used for the collision scenario. -/
def entryAB : CachedSecret :=
  { value := "v-from-a-slash-b"
    version := 1
    expiresAt := none
    metadata := "null"
    updatedAt := 0
    etag := none
    lastModified := none
    cacheExpiresAt := 100 }

/-- A client state caching the logical resource (namespace `a/b`, key `c`). -/
def stateAB : ClientState :=
  { cacheEnabled := true
    defaultTtlSecs := 300
    cache := some [(cache_key "a/b" "c", entryAB)]
    stats := ⟨0, 0, 0, 0, 0⟩ }

/-- C10: the mapping from logical resource identity (namespace, item-key) to
the cache key string is not injective: namespace `"a/b"` with key `"c"` and
namespace `"a"` with key `"b/c"` share the cache key `"a/b/c"`, so a fetch
of one logical resource observes the cached entry of the other, and an
invalidation of one removes the entry of the other. -/
theorem cache_key_collision :
    cache_key "a/b" "c" = cache_key "a" "b/c" ∧
    ("a/b", "c") ≠ (("a", "b/c") : String × String) ∧
    lookup_cache stateAB (cache_key "a/b" "c") = some entryAB ∧
    (get_from_cache stateAB 0 (cache_key "a" "b/c")).1 =
      some (entryAB.into_secret "a" "b/c") ∧
    lookup_cache (invalidate_cache stateAB "a" "b/c")
      (cache_key "a/b" "c") = none := by
  refine ⟨rfl, ?_, rfl, rfl, rfl⟩
  intro h
  exact absurd (congrArg Prod.fst h) (by decide)

/-! ## C9: the reported hit-rate -/

/-- C9 counterexample: at one hit and one miss the code reports a hit rate
of `50` (a percentage), not `hits / (hits + misses) = 1/2` as the claim
states. -/
theorem hit_rate_not_plain_ratio :
    hit_rate ⟨1, 1, 0, 0, 0⟩ = 50 ∧
    ¬ hit_rate ⟨1, 1, 0, 0, 0⟩ =
      ((⟨1, 1, 0, 0, 0⟩ : CacheStats).hits : ℚ) /
        (((⟨1, 1, 0, 0, 0⟩ : CacheStats).hits : ℚ) +
          ((⟨1, 1, 0, 0, 0⟩ : CacheStats).misses : ℚ)) := by
  constructor
  · norm_num [hit_rate]
  · norm_num [hit_rate]

/-- C9 (amended): the reported hit-rate is the *percentage*
`hits / (hits + misses) * 100`, and `0` when `hits + misses` is `0`. -/
theorem hit_rate_spec (st : CacheStats) :
    (st.hits + st.misses = 0 → hit_rate st = 0) ∧
    (st.hits + st.misses ≠ 0 →
      hit_rate st =
        (st.hits : ℚ) / ((st.hits : ℚ) + (st.misses : ℚ)) * 100) := by
  constructor
  · intro h
    simp [hit_rate, h]
  · intro h
    simp only [hit_rate, if_neg h]
    push_cast
    ring

/-- C9 witness: at two hits and one miss the theorem yields the concrete
percentage value. -/
theorem hit_rate_spec_witness :
    hit_rate ⟨2, 1, 0, 0, 0⟩ =
      ((2 : ℚ) / ((2 : ℚ) + (1 : ℚ))) * 100 :=
  (hit_rate_spec ⟨2, 1, 0, 0, 0⟩).2 (by norm_num)

/-! ## C5: the retryable classification -/

/-- C5 counterexample: status 408 (and likewise the 5xx status 501) is NOT
classified as retryable by `Error::is_retryable`, contrary to the claim
that 408 and every 5xx status are retryable. -/
theorem is_retryable_408_false :
    (Error.http 408 "timeout" "Request Timeout" none).is_retryable = false ∧
    (Error.http 501 "internal" "Not Implemented" none).is_retryable = false := by
  exact ⟨rfl, rfl⟩

/-- C5 (amended): `Error::is_retryable` holds exactly for HTTP statuses
429, 500, 502, 503 and 504, network errors and timeouts; deserialization
(decode) errors are never retryable, and in the attempt classification a
decode transport error is a permanent failure, never a retry. -/
theorem is_retryable_characterization :
    (∀ e : Error,
      e.is_retryable = true ↔
        (∃ c m rid,
          e = .http 429 c m rid ∨ e = .http 500 c m rid ∨
          e = .http 502 c m rid ∨ e = .http 503 c m rid ∨
          e = .http 504 c m rid) ∨
        (∃ m, e = .network m) ∨ e = .timeout) ∧
    (∀ m, (Error.deserialize m).is_retryable = false) ∧
    (∀ (sr : Bool) (trc maxR cr : Nat) (m : String),
      classify_attempt sr trc maxR cr (.transportErr (.decode m)) =
        .done (.error (.deserialize m))) := by
  refine ⟨?_, fun m => rfl, fun sr trc maxR cr m => ?_⟩
  · intro e
    cases e with
    | http s c m rid =>
        simp only [Error.is_retryable, Bool.or_eq_true, beq_iff_eq]
        constructor
        · rintro ((((h | h) | h) | h) | h) <;> subst h
          · exact Or.inl ⟨c, m, rid, Or.inl rfl⟩
          · exact Or.inl ⟨c, m, rid, Or.inr (Or.inl rfl)⟩
          · exact Or.inl ⟨c, m, rid, Or.inr (Or.inr (Or.inl rfl))⟩
          · exact Or.inl ⟨c, m, rid, Or.inr (Or.inr (Or.inr (Or.inl rfl)))⟩
          · exact Or.inl ⟨c, m, rid, Or.inr (Or.inr (Or.inr (Or.inr rfl)))⟩
        · rintro (⟨c', m', rid', h | h | h | h | h⟩ | ⟨m', h⟩ | h) <;>
            cases h <;> simp
    | deserialize m => simp [Error.is_retryable]
    | network m => simp [Error.is_retryable]
    | timeout => simp [Error.is_retryable]
    | config m => simp [Error.is_retryable]
    | other m => simp [Error.is_retryable]
  · simp [classify_attempt, error_from_reqwest, Error.is_retryable]

/-- C5 witness: the characterization applied to a concrete retryable error
(status 503) and to `Error.timeout`. -/
theorem is_retryable_characterization_witness :
    (Error.http 503 "service" "unavailable" none).is_retryable = true ∧
    Error.timeout.is_retryable = true :=
  ⟨(is_retryable_characterization.1 _).mpr
      (Or.inl ⟨"service", "unavailable", none,
        Or.inr (Or.inr (Or.inr (Or.inl rfl)))⟩),
    (is_retryable_characterization.1 _).mpr (Or.inr (Or.inr rfl))⟩

/-! ## C7: expiry semantics -/

/-- C7: `is_expired` holds exactly when the cache expiry has been reached
or the resource expiry is set and has been reached; and a `get` that finds
an entry whose cache expiry is in the past never returns it, removes it
from the store, and records exactly one expiration and one miss (hits
untouched). -/
theorem expired_entry_never_returned :
    (∀ (e : CachedSecret) (now : Int),
      e.is_expired now = true ↔
        e.cacheExpiresAt ≤ now ∨ ∃ t, e.expiresAt = some t ∧ t ≤ now) ∧
    (∀ (s : ClientState) (now : Int) (ck : String) (c : CacheMap)
        (entry : CachedSecret),
      s.cache = some c → cacheGet c ck = some entry →
      entry.cacheExpiresAt ≤ now →
      (get_from_cache s now ck).1 = none ∧
      lookup_cache (get_from_cache s now ck).2 ck = none ∧
      (get_from_cache s now ck).2.stats.expirations
        = s.stats.expirations + 1 ∧
      (get_from_cache s now ck).2.stats.misses = s.stats.misses + 1 ∧
      (get_from_cache s now ck).2.stats.hits = s.stats.hits) := by
  constructor
  · intro e now
    unfold CachedSecret.is_expired
    by_cases h1 : now ≥ e.cacheExpiresAt
    · rw [if_pos h1]
      exact iff_of_true rfl (Or.inl h1)
    · rw [if_neg h1]
      rcases he : e.expiresAt with _ | t
      · show (false : Bool) = true ↔ _
        constructor
        · intro hf
          cases hf
        · rintro (h | ⟨t, ht, _⟩)
          · exact absurd h h1
          · cases ht
      · show (if now ≥ t then true else false) = true ↔ _
        by_cases h2 : now ≥ t
        · rw [if_pos h2]
          exact iff_of_true rfl (Or.inr ⟨t, rfl, h2⟩)
        · rw [if_neg h2]
          constructor
          · intro hf
            cases hf
          · rintro (h | ⟨t', ht', h'⟩)
            · exact absurd h h1
            · cases ht'
              exact absurd h' h2
  · intro s now ck c entry hc hget hle
    have hexp : entry.is_expired now = true := by
      unfold CachedSecret.is_expired
      rw [if_pos hle]
    have hrun : get_from_cache s now ck =
        (none,
          { s with
              cache := some (cacheInvalidate c ck)
              stats := s.stats.record_expiration.record_miss }) := by
      simp only [get_from_cache, hc, hget, hexp, if_true]
    rw [hrun]
    exact ⟨rfl, cacheGet_invalidate_self c ck, rfl, rfl, rfl⟩

/-- C7 witness: the entry of `stateAB` has cache expiry 100, so a get at
instant 200 misses, removes it and counts one expiration and one miss. -/
theorem expired_entry_never_returned_witness :
    (get_from_cache stateAB 200 (cache_key "a/b" "c")).1 = none ∧
    lookup_cache (get_from_cache stateAB 200 (cache_key "a/b" "c")).2
      (cache_key "a/b" "c") = none ∧
    (get_from_cache stateAB 200 (cache_key "a/b" "c")).2.stats.expirations
      = stateAB.stats.expirations + 1 ∧
    (get_from_cache stateAB 200 (cache_key "a/b" "c")).2.stats.misses
      = stateAB.stats.misses + 1 ∧
    (get_from_cache stateAB 200 (cache_key "a/b" "c")).2.stats.hits
      = stateAB.stats.hits :=
  expired_entry_never_returned.2 stateAB 200 (cache_key "a/b" "c")
    [(cache_key "a/b" "c", entryAB)] entryAB rfl rfl (by norm_num [entryAB])

/-! ## Unfolding lemmas for the cache-consulting paths -/

theorem is_expired_false_of (cached : CachedSecret) (now : Int)
    (h1 : now < cached.cacheExpiresAt)
    (h2 : ∀ t, cached.expiresAt = some t → now < t) :
    cached.is_expired now = false := by
  unfold CachedSecret.is_expired
  rw [if_neg (not_le.mpr h1)]
  rcases he : cached.expiresAt with _ | t
  · rfl
  · show (if now ≥ t then true else false) = false
    rw [if_neg (not_le.mpr (h2 t he))]

theorem get_from_cache_disabled (s : ClientState) (now : Int) (ck : String)
    (hc : s.cache = none) : get_from_cache s now ck = (none, s) := by
  simp only [get_from_cache, hc]

theorem get_from_cache_absent (s : ClientState) (now : Int) (ck : String)
    (c : CacheMap) (hc : s.cache = some c) (hget : cacheGet c ck = none) :
    get_from_cache s now ck =
      (none, { s with stats := s.stats.record_miss }) := by
  simp only [get_from_cache, hc, hget]

theorem get_from_cache_fresh (s : ClientState) (now : Int) (ck : String)
    (c : CacheMap) (cached : CachedSecret) (hc : s.cache = some c)
    (hget : cacheGet c ck = some cached)
    (hfresh : cached.is_expired now = false) :
    get_from_cache s now ck =
      (some (cached.into_secret (split_cache_key ck).1
          (split_cache_key ck).2),
        { s with stats := s.stats.record_hit }) := by
  simp only [get_from_cache, hc, hget, hfresh, Bool.false_eq_true, if_false]

theorem get_from_cache_expired (s : ClientState) (now : Int) (ck : String)
    (c : CacheMap) (cached : CachedSecret) (hc : s.cache = some c)
    (hget : cacheGet c ck = some cached)
    (hexp : cached.is_expired now = true) :
    get_from_cache s now ck =
      (none,
        { s with
            cache := some (cacheInvalidate c ck)
            stats := s.stats.record_expiration.record_miss }) := by
  simp only [get_from_cache, hc, hget, hexp, if_true]

/-- A `get_secret` whose cache consultations find a fresh entry returns it
without dispatching and with one recorded hit. -/
theorem get_secret_hit (t : ClientState) (now : Int) (ns key : String)
    (net : NetResult) (d : CacheMap) (cached : CachedSecret)
    (hc : t.cache = some d)
    (hget : cacheGet d (cache_key ns key) = some cached)
    (hfresh : cached.is_expired now = false) :
    get_secret t now ns key GetOpts.default net =
      ⟨.ok (cached.into_secret (split_cache_key (cache_key ns key)).1
          (split_cache_key (cache_key ns key)).2),
        { t with stats := t.stats.record_hit }, false⟩ := by
  simp [get_secret, GetOpts.default,
    get_from_cache_fresh t now _ d cached hc hget hfresh]

/-- A `get_secret` whose first cache consultation misses and whose network
dispatch succeeds stores the parsed secret (when caching is enabled) and
returns it. -/
theorem get_secret_fetch (t t1 : ClientState) (now : Int) (ns key : String)
    (body : GetBody)
    (h : get_from_cache t now (cache_key ns key) = (none, t1))
    (hen : t1.cacheEnabled = true) :
    get_secret t now ns key GetOpts.default (.ok body) =
      ⟨.ok (secret_of_body ns key body),
        cache_secret t1 now (cache_key ns key) (secret_of_body ns key body),
        true⟩ := by
  simp [get_secret, GetOpts.default, h, hen]

/-! ## C1: cached round-trip on an immediate second get -/

/-- C1 (amended): with caching enabled, a positive TTL and a fetched secret
whose resource expiry (if any) lies strictly after the current instant, a
successful `get_secret` with default options followed immediately by a
second `get_secret` with default options returns the identical secret
value without dispatching a network request, increments hits by exactly 1
and leaves misses unchanged. -/
theorem get_secret_cache_roundtrip
    (s : ClientState) (now : Int) (ns key : String) (body : GetBody)
    (net2 : NetResult) (c : CacheMap)
    (hen : s.cacheEnabled = true) (hc : s.cache = some c)
    (httl : 0 < s.defaultTtlSecs)
    (hres : ∀ t, body.expiresAt = some t → now < t) :
    ∃ sec1 sec2,
      (get_secret s now ns key GetOpts.default (.ok body)).result
        = .ok sec1 ∧
      (get_secret (get_secret s now ns key GetOpts.default (.ok body)).state
          now ns key GetOpts.default net2).result = .ok sec2 ∧
      sec2.value = sec1.value ∧
      (get_secret (get_secret s now ns key GetOpts.default (.ok body)).state
          now ns key GetOpts.default net2).dispatched = false ∧
      (get_secret (get_secret s now ns key GetOpts.default (.ok body)).state
          now ns key GetOpts.default net2).state.stats.hits
        = (get_secret s now ns key GetOpts.default (.ok body)).state.stats.hits
            + 1 ∧
      (get_secret (get_secret s now ns key GetOpts.default (.ok body)).state
          now ns key GetOpts.default net2).state.stats.misses
        = (get_secret s now ns key
            GetOpts.default (.ok body)).state.stats.misses := by
  have hpos : 0 < chosen_ttl s.defaultTtlSecs (secret_of_body ns key body) := by
    unfold chosen_ttl
    split
    · omega
    · omega
  have hfreshmc :
      (make_cached s.defaultTtlSecs now
        (secret_of_body ns key body)).is_expired now = false := by
    apply is_expired_false_of
    · show now < now +
        (chosen_ttl s.defaultTtlSecs (secret_of_body ns key body) : Int)
      omega
    · intro t ht
      exact hres t ht
  rcases hg : cacheGet c (cache_key ns key) with _ | cached
  · -- first consultation: miss, fetch, store
    have h1 := get_from_cache_absent s now (cache_key ns key) c hc hg
    have hfetch := get_secret_fetch s _ now ns key body h1 hen
    have hcs : cache_secret { s with stats := s.stats.record_miss } now
        (cache_key ns key) (secret_of_body ns key body) =
        { s with
            cache := some (cacheInsert c (cache_key ns key)
              (make_cached s.defaultTtlSecs now (secret_of_body ns key body)))
            stats := s.stats.record_miss.record_insertion } := by
      simp [cache_secret, hc]
    have hhit := get_secret_hit
      { s with
          cache := some (cacheInsert c (cache_key ns key)
            (make_cached s.defaultTtlSecs now (secret_of_body ns key body)))
          stats := s.stats.record_miss.record_insertion }
      now ns key net2 _ _ rfl
      (cacheGet_insert_self c (cache_key ns key) _) hfreshmc
    refine ⟨secret_of_body ns key body,
      (make_cached s.defaultTtlSecs now
          (secret_of_body ns key body)).into_secret
        (split_cache_key (cache_key ns key)).1
        (split_cache_key (cache_key ns key)).2, ?_, ?_, ?_, ?_, ?_, ?_⟩ <;>
      first
      | rfl
      | (simp only [hfetch, hcs, hhit]; try rfl)
  · cases hb : cached.is_expired now with
    | true =>
      -- first consultation: expired entry removed, fetch, store
      have h1 := get_from_cache_expired s now (cache_key ns key) c cached hc
        hg hb
      have hfetch := get_secret_fetch s _ now ns key body h1 hen
      have hcs : cache_secret
          { s with
              cache := some (cacheInvalidate c (cache_key ns key))
              stats := s.stats.record_expiration.record_miss } now
          (cache_key ns key) (secret_of_body ns key body) =
          { s with
              cache := some (cacheInsert (cacheInvalidate c (cache_key ns key))
                (cache_key ns key)
                (make_cached s.defaultTtlSecs now
                  (secret_of_body ns key body)))
              stats :=
                s.stats.record_expiration.record_miss.record_insertion } := by
        simp [cache_secret]
      have hhit := get_secret_hit
        { s with
            cache := some (cacheInsert (cacheInvalidate c (cache_key ns key))
              (cache_key ns key)
              (make_cached s.defaultTtlSecs now (secret_of_body ns key body)))
            stats := s.stats.record_expiration.record_miss.record_insertion }
        now ns key net2 _ _ rfl
        (cacheGet_insert_self _ (cache_key ns key) _) hfreshmc
      refine ⟨secret_of_body ns key body,
        (make_cached s.defaultTtlSecs now
            (secret_of_body ns key body)).into_secret
          (split_cache_key (cache_key ns key)).1
          (split_cache_key (cache_key ns key)).2, ?_, ?_, ?_, ?_, ?_, ?_⟩ <;>
        first
        | rfl
        | (simp only [hfetch, hcs, hhit]; try rfl)
    | false =>
      -- first consultation already hits
      have hhit1 := get_secret_hit s now ns key (.ok body) c cached hc hg hb
      have hhit2 := get_secret_hit { s with stats := s.stats.record_hit }
        now ns key net2 c cached hc hg hb
      refine ⟨cached.into_secret (split_cache_key (cache_key ns key)).1
          (split_cache_key (cache_key ns key)).2,
        cached.into_secret (split_cache_key (cache_key ns key)).1
          (split_cache_key (cache_key ns key)).2, ?_, ?_, ?_, ?_, ?_, ?_⟩ <;>
        first
        | rfl
        | (simp only [hhit1, hhit2]; try rfl)

/-- A fetched body whose resource expiry is already in the past. -/
def bodyStale : GetBody :=
  { value := "v"
    version := 1
    expiresAt := some 0
    metadata := "null"
    updatedAt := 0
    etag := none
    lastModified := none
    requestId := none }

/-- A fetched body with no resource expiry. -/
def bodyFresh : GetBody :=
  { value := "v"
    version := 1
    expiresAt := none
    metadata := "null"
    updatedAt := 0
    etag := none
    lastModified := none
    requestId := none }

/-- A caching-enabled client with an empty cache. -/
def emptyState : ClientState :=
  { cacheEnabled := true
    defaultTtlSecs := 300
    cache := some []
    stats := ⟨0, 0, 0, 0, 0⟩ }

/-- C1 counterexample: a successful fetch of a secret whose resource expiry
(`expires_at = 0`) already passed (now = 5) caches an entry that the
immediately following default-options `get_secret` finds expired, so the
second call DOES dispatch a network request, leaves hits unchanged and
increments misses — contradicting the claim for this key. -/
theorem get_secret_cache_roundtrip_cex :
    (get_secret emptyState 5 "ns" "k" GetOpts.default (.ok bodyStale)).result
      = .ok (secret_of_body "ns" "k" bodyStale) ∧
    (get_secret
        (get_secret emptyState 5 "ns" "k" GetOpts.default
          (.ok bodyStale)).state
        5 "ns" "k" GetOpts.default (.ok bodyStale)).dispatched = true ∧
    (get_secret
        (get_secret emptyState 5 "ns" "k" GetOpts.default
          (.ok bodyStale)).state
        5 "ns" "k" GetOpts.default (.ok bodyStale)).state.stats.hits
      = (get_secret emptyState 5 "ns" "k" GetOpts.default
          (.ok bodyStale)).state.stats.hits ∧
    (get_secret
        (get_secret emptyState 5 "ns" "k" GetOpts.default
          (.ok bodyStale)).state
        5 "ns" "k" GetOpts.default (.ok bodyStale)).state.stats.misses
      = (get_secret emptyState 5 "ns" "k" GetOpts.default
          (.ok bodyStale)).state.stats.misses + 1 :=
  ⟨rfl, rfl, rfl, rfl⟩

/-- C1 witness: the round-trip theorem applied to the empty caching client
and a body without resource expiry. -/
theorem get_secret_cache_roundtrip_witness :
    ∃ sec1 sec2,
      (get_secret emptyState 5 "ns" "k" GetOpts.default
          (.ok bodyFresh)).result = .ok sec1 ∧
      (get_secret
          (get_secret emptyState 5 "ns" "k" GetOpts.default
            (.ok bodyFresh)).state
          5 "ns" "k" GetOpts.default (.ok bodyFresh)).result = .ok sec2 ∧
      sec2.value = sec1.value ∧
      (get_secret
          (get_secret emptyState 5 "ns" "k" GetOpts.default
            (.ok bodyFresh)).state
          5 "ns" "k" GetOpts.default (.ok bodyFresh)).dispatched = false ∧
      (get_secret
          (get_secret emptyState 5 "ns" "k" GetOpts.default
            (.ok bodyFresh)).state
          5 "ns" "k" GetOpts.default (.ok bodyFresh)).state.stats.hits
        = (get_secret emptyState 5 "ns" "k" GetOpts.default
            (.ok bodyFresh)).state.stats.hits + 1 ∧
      (get_secret
          (get_secret emptyState 5 "ns" "k" GetOpts.default
            (.ok bodyFresh)).state
          5 "ns" "k" GetOpts.default (.ok bodyFresh)).state.stats.misses
        = (get_secret emptyState 5 "ns" "k" GetOpts.default
            (.ok bodyFresh)).state.stats.misses :=
  get_secret_cache_roundtrip emptyState 5 "ns" "k" bodyFresh (.ok bodyFresh)
    [] rfl rfl (by norm_num [emptyState]) (by intro t ht; cases ht)

/-! ## C6 and C8: 304 handling and cache bypass -/

/-- A `GetOpts` requesting cache bypass with a conditional header. -/
def optsBypass : GetOpts :=
  { useCache := false, ifNoneMatch := some "W-1", ifModifiedSince := none }

/-- A fresh cached entry for namespace `ns`, key `k`. -/
def entryNK : CachedSecret :=
  { value := "cached-v"
    version := 1
    expiresAt := none
    metadata := "null"
    updatedAt := 0
    etag := some "W-1"
    lastModified := none
    cacheExpiresAt := 100 }

/-- A caching-enabled client that has `ns/k` cached. -/
def stateNK : ClientState :=
  { cacheEnabled := true
    defaultTtlSecs := 300
    cache := some [(cache_key "ns" "k", entryNK)]
    stats := ⟨0, 0, 0, 0, 0⟩ }

/-- A client built with caching disabled. -/
def disabledState : ClientState :=
  { cacheEnabled := false
    defaultTtlSecs := 300
    cache := none
    stats := ⟨0, 0, 0, 0, 0⟩ }

/-- C6 counterexample: a `get_secret` with cache bypass (`use_cache =
false`) that receives a 304 while a valid cache entry exists is silently
resolved as a SUCCESS from the cache, not surfaced as a
protocol-inconsistency error as the claim states. -/
theorem get_secret_304_bypass_cex :
    optsBypass.useCache = false ∧
    (get_secret stateNK 0 "ns" "k" optsBypass .notModified).result
      = .ok (entryNK.into_secret "ns" "k") :=
  ⟨rfl, rfl⟩

/-- C6 (amended): a 304 with caching disabled always surfaces the
protocol-inconsistency error; a 304 under cache bypass surfaces it exactly
when no valid cached entry exists to resolve it. -/
theorem get_secret_304_error (s : ClientState) (now : Int) (ns key : String)
    (opts : GetOpts) :
    (s.cache = none →
      (get_secret s now ns key opts .notModified).result
        = .error (.other "Server returned 304 but no cached entry found")) ∧
    (opts.useCache = false →
      (get_from_cache s now (cache_key ns key)).1 = none →
      (get_secret s now ns key opts .notModified).result
        = .error (.other "Server returned 304 but no cached entry found")) := by
  constructor
  · intro hc
    cases huse : opts.useCache <;>
      simp [get_secret, huse, get_from_cache_disabled s now _ hc]
  · intro huse hfst
    rcases hgc : get_from_cache s now (cache_key ns key) with ⟨r, t⟩
    rw [hgc] at hfst
    cases hfst
    simp [get_secret, huse, hgc]

/-- C6 witness: the amended theorem at a caching-disabled client. -/
theorem get_secret_304_error_witness :
    (get_secret disabledState 0 "ns" "k" GetOpts.default
        .notModified).result
      = .error (.other "Server returned 304 but no cached entry found") :=
  (get_secret_304_error disabledState 0 "ns" "k" GetOpts.default).1 rfl

/-- C8 counterexample: a bypass `get_secret` that receives a 304 and finds
a valid cached entry records a cache hit, so bypass calls CAN increment
the hits counter, contrary to the claim. -/
theorem get_secret_bypass_hits_cex :
    optsBypass.useCache = false ∧
    (get_secret stateNK 0 "ns" "k" optsBypass .notModified).state.stats.hits
      = stateNK.stats.hits + 1 :=
  ⟨rfl, rfl⟩

/-- C8 (amended): a `get_secret` with cache bypass always dispatches a
network request, and — except when the response is a 304 resolved against
the cache — never changes the hits counter. -/
theorem get_secret_bypass_dispatches (s : ClientState) (now : Int)
    (ns key : String) (opts : GetOpts) (net : NetResult)
    (huse : opts.useCache = false) :
    (get_secret s now ns key opts net).dispatched = true ∧
    (net ≠ .notModified →
      (get_secret s now ns key opts net).state.stats.hits = s.stats.hits) := by
  constructor
  · cases net with
    | err e => simp [get_secret, huse]
    | ok body => simp [get_secret, huse]
    | notModified =>
        rcases hgc : get_from_cache s now (cache_key ns key) with ⟨r, t⟩
        cases r <;> simp [get_secret, huse, hgc]
  · intro hne
    cases net with
    | err e => simp [get_secret, huse]
    | ok body => simp [get_secret, huse]
    | notModified => exact absurd rfl hne

/-- C8 witness: a bypass get against the cached client with a network
error response dispatches and leaves hits untouched. -/
theorem get_secret_bypass_dispatches_witness :
    (get_secret stateNK 0 "ns" "k" optsBypass (.err .timeout)).dispatched
      = true ∧
    (get_secret stateNK 0 "ns" "k" optsBypass
        (.err .timeout)).state.stats.hits = stateNK.stats.hits :=
  ⟨(get_secret_bypass_dispatches stateNK 0 "ns" "k" optsBypass
      (.err .timeout) rfl).1,
    (get_secret_bypass_dispatches stateNK 0 "ns" "k" optsBypass
      (.err .timeout) rfl).2 (by simp)⟩

/-! ## C4: mutations invalidate before dispatch -/

/-- An uncached key forces `get_secret` to dispatch. -/
theorem get_secret_dispatches_of_not_cached (t : ClientState) (now : Int)
    (ns key : String) (net : NetResult)
    (h : lookup_cache t (cache_key ns key) = none) :
    (get_secret t now ns key GetOpts.default net).dispatched = true := by
  have hfst : (get_from_cache t now (cache_key ns key)).1 = none := by
    rcases ht : t.cache with _ | c
    · rw [get_from_cache_disabled t now _ ht]
    · have hg : cacheGet c (cache_key ns key) = none := by
        simpa [lookup_cache, ht] using h
      rw [get_from_cache_absent t now _ c ht hg]
  rcases hgc : get_from_cache t now (cache_key ns key) with ⟨r, t1⟩
  rw [hgc] at hfst
  cases hfst
  cases net with
  | err e => simp [get_secret, GetOpts.default, hgc]
  | ok body => simp [get_secret, GetOpts.default, hgc]
  | notModified =>
      rcases hgc2 : get_from_cache t1 now (cache_key ns key) with ⟨r2, t2⟩
      cases r2 <;> simp [get_secret, GetOpts.default, hgc, hgc2]

theorem invalidate_step_lookup (s : ClientState) (ck : String) :
    lookup_cache (invalidate_step s ck).1 ck = none := by
  rcases hc : s.cache with _ | c
  · simp [invalidate_step, hc, lookup_cache]
  · simp [invalidate_step, hc, lookup_cache, cacheGet_invalidate_self]

theorem no_invalidate_after_dispatch_step (s : ClientState) (ck : String) :
    no_invalidate_after_dispatch ((invalidate_step s ck).2 ++ [.dispatch])
      = true := by
  rcases hc : s.cache with _ | c <;>
    simp [invalidate_step, hc, no_invalidate_after_dispatch]

theorem no_invalidate_after_dispatch_batch (ops : List BatchOp) (ns : String) :
    no_invalidate_after_dispatch
      ((ops.map (fun op => Event.invalidate (cache_key ns op.key)))
        ++ [.dispatch]) = true := by
  induction ops with
  | nil => rfl
  | cons op ops ih => simpa [no_invalidate_after_dispatch] using ih

theorem batch_step_lookup (s : ClientState) (ns : String)
    (ops : List BatchOp) (op : BatchOp) (hop : op ∈ ops) :
    lookup_cache (batch_invalidate_step s ns ops).1 (cache_key ns op.key)
      = none := by
  rcases hc : s.cache with _ | c
  · simp [batch_invalidate_step, hc, lookup_cache]
  · simp only [batch_invalidate_step, hc, lookup_cache]
    exact invalidate_keys_get_none _ _ _
      (List.mem_map_of_mem (fun op => cache_key ns op.key) hop)

/-- C4: each mutating operation (`put_secret`, `delete_secret`,
`rollback`, `batch_operate`) invalidates the cache entries of every
affected key strictly before its network dispatch and unconditionally on
the response, so afterwards the affected keys are absent from the cache
and the next default-options `get_secret` of such a key dispatches a fresh
network request regardless of TTL. -/
theorem mutations_invalidate_before_dispatch (α : Type) (s : ClientState)
    (now : Int) (ns key : String) (version : Int) (ops : List BatchOp)
    (tx : Bool) (net : Except Error α) (net2 : NetResult) :
    (no_invalidate_after_dispatch (put_secret s ns key net).trace = true ∧
      lookup_cache (put_secret s ns key net).state (cache_key ns key)
        = none ∧
      (get_secret (put_secret s ns key net).state now ns key
          GetOpts.default net2).dispatched = true) ∧
    (no_invalidate_after_dispatch (delete_secret s ns key net).trace
        = true ∧
      lookup_cache (delete_secret s ns key net).state (cache_key ns key)
        = none ∧
      (get_secret (delete_secret s ns key net).state now ns key
          GetOpts.default net2).dispatched = true) ∧
    (no_invalidate_after_dispatch (rollback s ns key version net).trace
        = true ∧
      lookup_cache (rollback s ns key version net).state (cache_key ns key)
        = none ∧
      (get_secret (rollback s ns key version net).state now ns key
          GetOpts.default net2).dispatched = true) ∧
    (no_invalidate_after_dispatch (batch_operate s ns ops tx net).trace
        = true ∧
      ∀ op ∈ ops,
        lookup_cache (batch_operate s ns ops tx net).state
          (cache_key ns op.key) = none ∧
        (get_secret (batch_operate s ns ops tx net).state now ns op.key
            GetOpts.default net2).dispatched = true) := by
  refine ⟨⟨?_, ?_, ?_⟩, ⟨?_, ?_, ?_⟩, ⟨?_, ?_, ?_⟩, ?_, ?_⟩
  · exact no_invalidate_after_dispatch_step s (cache_key ns key)
  · exact invalidate_step_lookup s (cache_key ns key)
  · exact get_secret_dispatches_of_not_cached _ now ns key net2
      (invalidate_step_lookup s (cache_key ns key))
  · exact no_invalidate_after_dispatch_step s (cache_key ns key)
  · exact invalidate_step_lookup s (cache_key ns key)
  · exact get_secret_dispatches_of_not_cached _ now ns key net2
      (invalidate_step_lookup s (cache_key ns key))
  · exact no_invalidate_after_dispatch_step s (cache_key ns key)
  · exact invalidate_step_lookup s (cache_key ns key)
  · exact get_secret_dispatches_of_not_cached _ now ns key net2
      (invalidate_step_lookup s (cache_key ns key))
  · show no_invalidate_after_dispatch
      ((batch_invalidate_step s ns ops).2 ++ [.dispatch]) = true
    rcases hc : s.cache with _ | c
    · simp [batch_invalidate_step, hc, no_invalidate_after_dispatch]
    · simp only [batch_invalidate_step, hc]
      exact no_invalidate_after_dispatch_batch ops ns
  · intro op hop
    exact ⟨batch_step_lookup s ns ops op hop,
      get_secret_dispatches_of_not_cached _ now ns op.key net2
        (batch_step_lookup s ns ops op hop)⟩

/-- A concrete batch operation touching key `k`. -/
def opK : BatchOp :=
  { action := "put", key := "k", value := some "v2", ttlSeconds := none,
    metadata := none }

/-- C4 witness: after a `put_secret` and after a `batch_operate` touching
`ns/k` on the client that had `ns/k` cached, the entry is gone. -/
theorem mutations_invalidate_before_dispatch_witness :
    lookup_cache (put_secret stateNK "ns" "k" (Except.ok ())).state
      (cache_key "ns" "k") = none ∧
    lookup_cache (batch_operate stateNK "ns" [opK] true (Except.ok ())).state
      (cache_key "ns" (opK.key)) = none ∧
    (get_secret (put_secret stateNK "ns" "k" (Except.ok ())).state 0 "ns" "k"
        GetOpts.default (.ok bodyFresh)).dispatched = true :=
  ⟨(mutations_invalidate_before_dispatch Unit stateNK 0 "ns" "k" 1 [opK]
      true (Except.ok ()) (.ok bodyFresh)).1.2.1,
    ((mutations_invalidate_before_dispatch Unit stateNK 0 "ns" "k" 1 [opK]
      true (Except.ok ()) (.ok bodyFresh)).2.2.2.2 opK
      (List.mem_singleton.mpr rfl)).1,
    (mutations_invalidate_before_dispatch Unit stateNK 0 "ns" "k" 1 [opK]
      true (Except.ok ()) (.ok bodyFresh)).1.2.2⟩

/-! ## C2: the credential refresh happens exactly once per logical call -/

/-- C2: with a refresh-capable credential, a first 401 followed by a 2xx on
the post-refresh retry invokes the refresh exactly once and the logical
call succeeds; a first 401 followed by a second 401 invokes the refresh
exactly once and surfaces a permanent failure.  In both scenarios exactly
two physical sends occur. -/
theorem auth_refresh_exactly_once (maxR : Nat) (r1 r2 r3 : RawResponse)
    (h1 : r1.status = 401) :
    (200 ≤ r2.status → r2.status ≤ 299 →
      execute_with_retry true maxR [.response r1, .response r2]
        = some ⟨.ok r2, 2, 1⟩) ∧
    (r3.status = 401 →
      execute_with_retry true maxR [.response r1, .response r3]
        = some ⟨.error (parse_error_response r3), 2, 1⟩) := by
  have hcl1 : classify_attempt true 0 maxR 0 (.response r1) =
      .done (.error (.http 401 "auth_refresh_needed" "Token refresh required"
        r1.requestId)) := by
    simp [classify_attempt, h1]
  have hneed : needs_refresh_retry 0
      (Error.http 401 "auth_refresh_needed" "Token refresh required"
        r1.requestId) = true := rfl
  constructor
  · intro h2a h2b
    have hcl2 : classify_attempt true 1 maxR 0 (.response r2)
        = .done (.ok r2) := by
      have hA : ¬(r2.status = 401 ∧ (1 : Nat) = 0 ∧ True) := by
        rintro ⟨_, h10, _⟩
        omega
      have hB : ¬((500 ≤ r2.status ∧ r2.status ≤ 599) ∨ r2.status = 429 ∨
          r2.status = 408) := by omega
      have hC : ¬(¬(200 ≤ r2.status ∧ r2.status ≤ 299) ∧
          r2.status ≠ 304) := by
        rintro ⟨hna, _⟩
        exact hna ⟨h2a, h2b⟩
      simp only [classify_attempt]
      rw [if_neg hA, if_neg hB, if_neg hC]
    have hrun1 : run_inner true 0 maxR 0 [.response r1, .response r2]
        = some ⟨.error (.http 401 "auth_refresh_needed"
            "Token refresh required" r1.requestId), 1, [.response r2]⟩ := by
      simp [run_inner, hcl1]
    have hrun2 : run_inner true 1 maxR 0 [.response r2]
        = some ⟨.ok r2, 1, []⟩ := by
      simp [run_inner, hcl2]
    simp [execute_with_retry, hrun1, hrun2, hneed]
  · intro h3
    have hcl3 : classify_attempt true 1 maxR 0 (.response r3)
        = .done (.error (parse_error_response r3)) := by
      have hA : ¬(r3.status = 401 ∧ (1 : Nat) = 0 ∧ True) := by
        rintro ⟨_, h10, _⟩
        omega
      have hB : ¬((500 ≤ r3.status ∧ r3.status ≤ 599) ∨ r3.status = 429 ∨
          r3.status = 408) := by omega
      have hC : ¬(200 ≤ r3.status ∧ r3.status ≤ 299) ∧ r3.status ≠ 304 := by
        constructor
        · rintro ⟨_, hc⟩
          omega
        · omega
      simp only [classify_attempt]
      rw [if_neg hA, if_neg hB, if_pos hC]
    have hrun1 : run_inner true 0 maxR 0 [.response r1, .response r3]
        = some ⟨.error (.http 401 "auth_refresh_needed"
            "Token refresh required" r1.requestId), 1, [.response r3]⟩ := by
      simp [run_inner, hcl1]
    have hrun2 : run_inner true 1 maxR 0 [.response r3]
        = some ⟨.error (parse_error_response r3), 1, []⟩ := by
      simp [run_inner, hcl3]
    simp [execute_with_retry, hrun1, hrun2, hneed]

/-- A concrete 401 response with an `auth` error body. -/
def resp401 : RawResponse :=
  { status := 401, body := some ⟨"auth", "token expired", 401⟩,
    requestId := some "req-1" }

/-- A concrete 200 response. -/
def resp200 : RawResponse :=
  { status := 200, body := none, requestId := some "req-2" }

/-- C2 witness: the two scenarios at concrete responses with retry limit 3. -/
theorem auth_refresh_exactly_once_witness :
    execute_with_retry true 3 [.response resp401, .response resp200]
      = some ⟨.ok resp200, 2, 1⟩ ∧
    execute_with_retry true 3 [.response resp401, .response resp401]
      = some ⟨.error (parse_error_response resp401), 2, 1⟩ :=
  ⟨(auth_refresh_exactly_once 3 resp401 resp200 resp401 rfl).1
      (by norm_num [resp200]) (by norm_num [resp200]),
    (auth_refresh_exactly_once 3 resp401 resp200 resp401 rfl).2 rfl⟩

/-! ## C3: the retry budget -/

theorem retryable_outcomeError (o : TransportOutcome)
    (h : isRetryableFailure o = true) :
    (outcomeError o).is_retryable = true := by
  cases o with
  | response r =>
      simp only [isRetryableFailure, Bool.and_eq_true] at h
      exact h.2
  | transportErr re => exact h

theorem needs_refresh_false_of_retryable (trc : Nat) (e : Error)
    (h : e.is_retryable = true) : needs_refresh_retry trc e = false := by
  cases e with
  | http s c m rid =>
      simp only [Error.is_retryable, Bool.or_eq_true, beq_iff_eq] at h
      rcases h with ((((h | h) | h) | h) | h) <;> subst h <;> rfl
  | deserialize m => rfl
  | network m => rfl
  | timeout => rfl
  | config m => rfl
  | other m => rfl

theorem classify_retryable_budget (sr : Bool) (trc maxR cr : Nat)
    (o : TransportOutcome) (h : isRetryableFailure o = true)
    (hcr : cr < maxR) :
    classify_attempt sr trc maxR cr o = .transient (outcomeError o) := by
  cases o with
  | response r =>
      simp only [isRetryableFailure, Bool.and_eq_true, decide_eq_true_eq] at h
      obtain ⟨hpre, hret⟩ := h
      have h401 : ¬(r.status = 401 ∧ trc = 0 ∧ sr = true) := by
        rintro ⟨h4, _, _⟩
        omega
      simp only [classify_attempt]
      rw [if_neg h401, if_pos hpre, if_pos ⟨hret, hcr⟩]
      rfl
  | transportErr re =>
      simp only [isRetryableFailure] at h
      simp only [classify_attempt]
      rw [if_pos ⟨h, hcr⟩]
      rfl

theorem classify_retryable_exhausted (sr : Bool) (trc maxR cr : Nat)
    (o : TransportOutcome) (h : isRetryableFailure o = true)
    (hcr : ¬ cr < maxR) :
    classify_attempt sr trc maxR cr o = .done (.error (outcomeError o)) := by
  cases o with
  | response r =>
      simp only [isRetryableFailure, Bool.and_eq_true, decide_eq_true_eq] at h
      obtain ⟨hpre, hret⟩ := h
      have h401 : ¬(r.status = 401 ∧ trc = 0 ∧ sr = true) := by
        rintro ⟨h4, _, _⟩
        omega
      simp only [classify_attempt]
      rw [if_neg h401, if_pos hpre, if_neg (fun hh => hcr hh.2)]
      rfl
  | transportErr re =>
      simp only [isRetryableFailure] at h
      simp only [classify_attempt]
      rw [if_neg (fun hh => hcr hh.2)]
      rfl

theorem classify_success (sr : Bool) (trc maxR cr : Nat) (r : RawResponse)
    (h2a : 200 ≤ r.status) (h2b : r.status ≤ 299) :
    classify_attempt sr trc maxR cr (.response r) = .done (.ok r) := by
  have hA : ¬(r.status = 401 ∧ trc = 0 ∧ sr = true) := by
    rintro ⟨h4, _, _⟩
    omega
  have hB : ¬((500 ≤ r.status ∧ r.status ≤ 599) ∨ r.status = 429 ∨
      r.status = 408) := by omega
  have hC : ¬(¬(200 ≤ r.status ∧ r.status ≤ 299) ∧ r.status ≠ 304) := by
    rintro ⟨hna, _⟩
    exact hna ⟨h2a, h2b⟩
  simp only [classify_attempt]
  rw [if_neg hA, if_neg hB, if_neg hC]

theorem run_inner_all_retryable_ok (sr : Bool) (trc maxR : Nat)
    (r : RawResponse) (h2a : 200 ≤ r.status) (h2b : r.status ≤ 299) :
    ∀ (fs : List TransportOutcome) (cr : Nat),
      (∀ o ∈ fs, isRetryableFailure o = true) → cr + fs.length ≤ maxR →
      run_inner sr trc maxR cr (fs ++ [.response r])
        = some ⟨.ok r, fs.length + 1, []⟩ := by
  intro fs
  induction fs with
  | nil =>
      intro cr hall hbud
      simp [run_inner, classify_success sr trc maxR cr r h2a h2b]
  | cons o fs ih =>
      intro cr hall hbud
      rw [List.length_cons] at hbud
      have ho := hall o (List.mem_cons_self o fs)
      have hcr : cr < maxR := by omega
      simp only [List.cons_append, run_inner,
        classify_retryable_budget sr trc maxR cr o ho hcr, List.append_eq]
      rw [ih (cr + 1) (fun o' ho' => hall o' (List.mem_cons_of_mem _ ho'))
        (by omega)]
      rfl

theorem run_inner_exhaust (sr : Bool) (trc maxR : Nat)
    (l : List TransportOutcome) :
    ∀ (fs : List TransportOutcome) (cr : Nat),
      (∀ o ∈ fs, isRetryableFailure o = true) →
      maxR < cr + fs.length → cr ≤ maxR →
      ∃ o', fs.get? (maxR - cr) = some o' ∧
        run_inner sr trc maxR cr (fs ++ l)
          = some ⟨.error (outcomeError o'), maxR - cr + 1,
              fs.drop (maxR - cr + 1) ++ l⟩ := by
  intro fs
  induction fs with
  | nil =>
      intro cr hall h1 h2
      exfalso
      rw [List.length_nil] at h1
      omega
  | cons o fs ih =>
      intro cr hall h1 h2
      rw [List.length_cons] at h1
      by_cases hcr : cr < maxR
      · obtain ⟨o', hget, hrun⟩ :=
          ih (cr + 1) (fun o' ho' => hall o' (List.mem_cons_of_mem _ ho'))
            (by omega) (by omega)
        have hidx : maxR - cr = (maxR - (cr + 1)) + 1 := by omega
        refine ⟨o', ?_, ?_⟩
        · rw [hidx, List.get?_cons_succ]
          exact hget
        · have ho := hall o (List.mem_cons_self o fs)
          simp only [List.cons_append, run_inner,
            classify_retryable_budget sr trc maxR cr o ho hcr,
            List.append_eq]
          rw [hrun, hidx]
          rw [List.drop_succ_cons]
      · have ho := hall o (List.mem_cons_self o fs)
        have h0 : maxR - cr = 0 := by omega
        refine ⟨o, by rw [h0]; rfl, ?_⟩
        simp only [List.cons_append, run_inner,
          classify_retryable_exhausted sr trc maxR cr o ho hcr,
          List.append_eq]
        rw [h0]
        rfl

/-- C3: for a transport oracle of `N` retryable failures followed by one
2xx success, a retry limit of at least `N` makes the logical call succeed
with exactly `N + 1` physical sends; a retry limit `m < N` makes the call
fail after `m + 1` sends, surfacing the error of the last outcome that was
observed (`fs.get? m`), and in both cases no credential refresh occurs. -/
theorem retry_budget (sr : Bool) (maxR : Nat) (fs : List TransportOutcome)
    (r : RawResponse)
    (hall : ∀ o ∈ fs, isRetryableFailure o = true)
    (h2a : 200 ≤ r.status) (h2b : r.status ≤ 299) :
    (fs.length ≤ maxR →
      execute_with_retry sr maxR (fs ++ [.response r])
        = some ⟨.ok r, fs.length + 1, 0⟩) ∧
    (maxR < fs.length →
      ∃ o', fs.get? maxR = some o' ∧
        execute_with_retry sr maxR (fs ++ [.response r])
          = some ⟨.error (outcomeError o'), maxR + 1, 0⟩) := by
  constructor
  · intro hle
    have hrun := run_inner_all_retryable_ok sr 0 maxR r h2a h2b fs 0 hall
      (by omega)
    simp [execute_with_retry, hrun]
  · intro hlt
    obtain ⟨o', hget, hrun⟩ := run_inner_exhaust sr 0 maxR [.response r] fs 0
      hall (by omega) (by omega)
    rw [Nat.sub_zero] at hget hrun
    have hmem : o' ∈ fs := List.get?_mem hget
    have hnr : needs_refresh_retry 0 (outcomeError o') = false :=
      needs_refresh_false_of_retryable 0 _
        (retryable_outcomeError o' (hall o' hmem))
    refine ⟨o', hget, ?_⟩
    simp [execute_with_retry, hrun, hnr]

/-- A concrete retryable 500 response. -/
def resp500 : RawResponse :=
  { status := 500, body := some ⟨"internal", "boom", 500⟩,
    requestId := none }

/-- C3 witness: two 500s then a 200.  With retry limit 2 the call succeeds
after 3 sends; with retry limit 1 it fails after 2 sends with the second
500 as the surfaced error. -/
theorem retry_budget_witness :
    execute_with_retry false 2
        [.response resp500, .response resp500, .response resp200]
      = some ⟨.ok resp200, 3, 0⟩ ∧
    ∃ o', [TransportOutcome.response resp500,
        TransportOutcome.response resp500].get? 1 = some o' ∧
      execute_with_retry false 1
          [.response resp500, .response resp500, .response resp200]
        = some ⟨.error (outcomeError o'), 2, 0⟩ :=
  ⟨(retry_budget false 2 [.response resp500, .response resp500] resp200
      (by intro o ho; fin_cases ho <;> rfl) (by norm_num [resp200])
      (by norm_num [resp200])).1 (by norm_num),
    (retry_budget false 1 [.response resp500, .response resp500] resp200
      (by intro o ho; fin_cases ho <;> rfl) (by norm_num [resp200])
      (by norm_num [resp200])).2 (by norm_num)⟩

end SecretStore
